import Mathlib

/-!
Shallow embedding of the tree-editing core of `satisfactory-accounting`:
the per-node Edit Processor (`node_display.rs`, `Component::update`), the
Move Engine (`graph_manipulation::move_child`), and the Settings
Reconciler (`BuildingSettings::build_new_settings`), together with the
data model they operate on (`Node`, `Building`, `BuildingSettings`,
`Database`).

The Edit Processor is embedded directly from
`src/satisfactory-accounting-app/src/node_display.rs`.  The data model,
the Reconciler and the Move Engine live elsewhere in the repository
(the `satisfactory_accounting` crate and the `graph_manipulation`
module) and are modelled from the specification, as marked on each
definition.

Identifiers are opaque comparable tokens, modelled as `Nat`.  The
`clock_speed` scalar is only ever copied verbatim by the code under
study, so it too is modelled as an opaque `Nat` token.  The cached
balance of a node is an external pure float computation, out of scope
for every claim, and is omitted from the model.
-/

namespace SatAcct

/-- Modelled from the spec: opaque identifier for a building type. -/
abbrev BuildingId := Nat

/-- Modelled from the spec: opaque identifier for a recipe. -/
abbrev RecipeId := Nat

/-- Modelled from the spec: opaque identifier for an item. -/
abbrev ItemId := Nat

/-- Modelled from the spec: a structural path, a root-relative sequence of
child indices. -/
abbrev Path := List Nat

/-- Modelled from the spec: manufacturer-kind building settings,
`ManufacturerSettings { recipe, clock_speed }`. -/
structure ManufacturerSettings where
  recipe : Option RecipeId
  clock_speed : Nat
  deriving DecidableEq, Repr

/-- Modelled from the spec: miner-kind building settings,
`MinerSettings { resource, clock_speed }`. -/
structure MinerSettings where
  resource : Option ItemId
  clock_speed : Nat
  deriving DecidableEq, Repr

/-- Modelled from the spec: generator-kind building settings,
`GeneratorSettings { fuel, clock_speed }`. -/
structure GeneratorSettings where
  fuel : Option ItemId
  clock_speed : Nat
  deriving DecidableEq, Repr

/-- Modelled from the spec: pump-kind building settings,
`PumpSettings { resource, clock_speed }`. -/
structure PumpSettings where
  resource : Option ItemId
  clock_speed : Nat
  deriving DecidableEq, Repr

/-- Modelled from the spec: `BuildingSettings`, a sum type keyed by
building kind. -/
inductive BuildingSettings where
  | Manufacturer (s : ManufacturerSettings)
  | Miner (s : MinerSettings)
  | Generator (s : GeneratorSettings)
  | Pump (s : PumpSettings)
  deriving DecidableEq, Repr

/-- Modelled from the spec: `BuildingKindId`, the bare tag of a building
kind (the values returned by the first match of the `ChangeItem` handler
are `Miner`, `Generator` and `Pump`). -/
inductive BuildingKindId where
  | Manufacturer
  | Miner
  | Generator
  | Pump
  deriving DecidableEq, Repr

/-- Modelled from the spec: the manufacturer kind record of a
`BuildingType`, carrying the allow-list `available_recipes`. -/
structure ManufacturerKind where
  available_recipes : List RecipeId
  deriving DecidableEq, Repr

/-- Modelled from the spec: the miner kind record, carrying
`allowed_resources`. -/
structure MinerKind where
  allowed_resources : List ItemId
  deriving DecidableEq, Repr

/-- Modelled from the spec: the generator kind record, carrying
`allowed_fuel`. -/
structure GeneratorKind where
  allowed_fuel : List ItemId
  deriving DecidableEq, Repr

/-- Modelled from the spec: the pump kind record, carrying
`allowed_resources`. -/
structure PumpKind where
  allowed_resources : List ItemId
  deriving DecidableEq, Repr

/-- Modelled from the spec: `BuildingKind`, the Database-provided kind of
a building type with its allow-lists. -/
inductive BuildingKind where
  | Manufacturer (m : ManufacturerKind)
  | Miner (m : MinerKind)
  | Generator (g : GeneratorKind)
  | Pump (p : PumpKind)
  deriving DecidableEq, Repr

/-- Modelled from the spec: `BuildingType { kind, .. }` as far as the
edit code consumes it. -/
structure BuildingType where
  kind : BuildingKind
  deriving DecidableEq, Repr

/-- Modelled from the spec: the read-only Database, a lookup from
`BuildingId` to `BuildingType`, modelled as an association list. -/
abbrev Database := List (BuildingId × BuildingType)

/-- Modelled from the spec: `db.get(id)`, the pure lookup of a building
type by identifier. -/
def Database.get (db : Database) (id : BuildingId) : Option BuildingType :=
  (db.find? (fun e => e.1 == id)).map (fun e => e.2)

/-- Modelled from the spec: a `Building` node payload,
`Building { building, settings, .. }` (the cached balance, an external
float computation, is omitted). -/
structure Building where
  building : Option BuildingId
  settings : BuildingSettings
  deriving DecidableEq, Repr

/-- Modelled from the spec: `Node`, the tagged-union tree value: a
`Group` (name plus ordered children) or a `Building`. -/
inductive Node where
  | group (name : String) (children : List Node)
  | building (b : Building)
  deriving Repr

/-- The tag of the active variant of a `BuildingSettings` value. -/
def BuildingSettings.kindId : BuildingSettings → BuildingKindId
  | .Manufacturer _ => .Manufacturer
  | .Miner _ => .Miner
  | .Generator _ => .Generator
  | .Pump _ => .Pump

/-- The tag of a Database-provided `BuildingKind`. -/
def BuildingKind.kindId : BuildingKind → BuildingKindId
  | .Manufacturer _ => .Manufacturer
  | .Miner _ => .Miner
  | .Generator _ => .Generator
  | .Pump _ => .Pump

/-- Modelled from the spec: `settings.clock_speed()`, the scalar clock
speed of whichever variant is active. -/
def BuildingSettings.clock_speed : BuildingSettings → Nat
  | .Manufacturer s => s.clock_speed
  | .Miner s => s.clock_speed
  | .Generator s => s.clock_speed
  | .Pump s => s.clock_speed

/-- Modelled from the spec: the default settings for a kind (all
kind-specific selectors unset) with the scalar `clock_speed` copied over. -/
def defaultSettingsFor (kind : BuildingKind) (clock : Nat) : BuildingSettings :=
  match kind with
  | .Manufacturer _ => .Manufacturer { recipe := none, clock_speed := clock }
  | .Miner _ => .Miner { resource := none, clock_speed := clock }
  | .Generator _ => .Generator { fuel := none, clock_speed := clock }
  | .Pump _ => .Pump { resource := none, clock_speed := clock }

/-- Modelled from the spec: the Settings Reconciler
`build_new_settings(old_settings, new_kind)`: if the old settings are
already shaped for the new kind they are returned unchanged, otherwise
the defaults for the new kind are constructed with only `clock_speed`
carried over. -/
def BuildingSettings.build_new_settings (old : BuildingSettings)
    (kind : BuildingKind) : BuildingSettings :=
  if old.kindId = kind.kindId then old
  else defaultSettingsFor kind old.clock_speed

/-- Rust `Vec::remove(i)` on an in-range index: the list without the
element at position `i`. -/
def vecRemove {α : Type} (l : List α) (i : Nat) : List α :=
  l.take i ++ l.drop (i + 1)

/-- Rust `Vec::insert(i, a)` on an in-range index (`i ≤ l.length`): the
list with `a` placed at position `i`. -/
def vecInsert {α : Type} (l : List α) (i : Nat) (a : α) : List α :=
  l.take i ++ a :: l.drop i

/-- Outcome of a Group-targeted message of the Edit Processor: either a
replacement group emitted to the parent via the `replace` callback, a
rejection reported with a `warn!` diagnostic and no replacement, or a
silent no-op (rename with an unchanged name). -/
inductive GroupEditOutcome where
  | replaced (name : String) (children : List Node)
  | rejected
  | noop

/-- `Msg::ReplaceChild` from `node_display.rs`: on a group with `idx` in
range, replace the child at `idx`; otherwise warn and do nothing. -/
def replaceChild (node : Node) (idx : Nat) (replacement : Node) : GroupEditOutcome :=
  match node with
  | .group name children =>
    if idx < children.length then
      .replaced name (children.set idx replacement)
    else .rejected
  | .building _ => .rejected

/-- `Msg::DeleteChild` from `node_display.rs`: on a group with `idx` in
range, remove the child at `idx`; otherwise warn and do nothing. -/
def deleteChild (node : Node) (idx : Nat) : GroupEditOutcome :=
  match node with
  | .group name children =>
    if idx < children.length then
      .replaced name (vecRemove children idx)
    else .rejected
  | .building _ => .rejected

/-- `Msg::CopyChild` from `node_display.rs`: on a group with `idx` in
range, insert a clone of the child at `idx` at position `idx + 1`;
otherwise warn and do nothing. -/
def copyChild (node : Node) (idx : Nat) : GroupEditOutcome :=
  match node with
  | .group name children =>
    if h : idx < children.length then
      .replaced name (vecInsert children (idx + 1) (children.get ⟨idx, h⟩))
    else .rejected
  | .building _ => .rejected

/-- `Msg::AddChild` from `node_display.rs`: on a group, push the child at
the end; on a building, warn and do nothing. -/
def addChild (node : Node) (child : Node) : GroupEditOutcome :=
  match node with
  | .group name children => .replaced name (children ++ [child])
  | .building _ => .rejected

/-- `Msg::Rename` from `node_display.rs`: on a group, trim the proposed
name and replace only when it differs from the current name; on a
building, warn and do nothing. -/
def rename (node : Node) (name : String) : GroupEditOutcome :=
  match node with
  | .group oldName children =>
    let trimmed := name.trim
    if trimmed ≠ oldName then .replaced trimmed children else .noop
  | .building _ => .rejected

/-- Modelled from the spec: step 1 of the Move Engine
(`graph_manipulation::move_child`, not under `src/`): resolve the group
addressed by the source path's penultimate segment and remove the element
at the final index, yielding the shrunk child sequence (with every group
along the removal path rebuilt) and the moved node.  `none` when the path
is empty or invalid per the Path Router. -/
def removeChildAt : List Node → Path → Option (List Node × Node)
  | _, [] => none
  | cs, [i] =>
    match cs.get? i with
    | some n => some (vecRemove cs i, n)
    | none => none
  | cs, i :: rest =>
    match cs.get? i with
    | some (Node.group gname gchildren) =>
      match removeChildAt gchildren rest with
      | some (gchildren2, moved) =>
        some (cs.set i (Node.group gname gchildren2), moved)
      | none => none
    | _ => none

/-- Modelled from the spec: step 3 of the Move Engine: insert the moved
node at the destination path's final index in the target group, rebuilding
every group along the insertion path.  `none` when the path is empty or
invalid per the Path Router. -/
def insertChildAt : List Node → Path → Node → Option (List Node)
  | _, [], _ => none
  | cs, [i], n =>
    if i ≤ cs.length then some (vecInsert cs i n) else none
  | cs, i :: rest, n =>
    match cs.get? i with
    | some (Node.group gname gchildren) =>
      match insertChildAt gchildren rest n with
      | some gchildren2 => some (cs.set i (Node.group gname gchildren2))
      | none => none
    | _ => none

/-- Modelled from the spec: step 2 of the Move Engine, the index
adjustment.  The destination path is reinterpreted against the shrunk
tree: when it passes through the removed position's parent at an index
after the removal point, that index shifts down by one; a destination
descending strictly into the removed subtree is degenerate (`none`,
moving a node inside itself). -/
def adjustDest (src dest : Path) : Option Path :=
  match src.getLast? with
  | none => none
  | some s =>
    let parent := src.dropLast
    let k := parent.length
    if parent.isPrefixOf dest then
      match dest.get? k with
      | none => some dest
      | some d =>
        if s < d then some (dest.set k (d - 1))
        else if d = s then
          if dest.length = k + 1 then some dest
          else none
        else some dest
    else some dest

/-- Modelled from the spec: the Move Engine
`move_subtree(root, src, dest) -> Group | no-op`
(`graph_manipulation::move_child`): remove the subtree at `src`, adjust
`dest` for the index shift caused by the removal, and reinsert; `none`
(no-op, original group kept) when either path is invalid, the source is
empty, the destination is inside the moved subtree, or source and
destination resolve to the same final position after adjustment. -/
def move_child (children : List Node) (src dest : Path) : Option (List Node) :=
  match removeChildAt children src with
  | none => none
  | some (shrunk, moved) =>
    match adjustDest src dest with
    | none => none
    | some dest2 =>
      if dest2 = src then none
      else insertChildAt shrunk dest2 moved

/-- Outcome of a building-identity message of the Edit Processor:
`replaced b diag` is a replacement emitted to the parent (`diag` records
whether a `warn!` diagnostic was also reported), `noop` is a silent
no-op (identity unchanged), `rejected` is a reported rejection with no
replacement, and `panicked` marks the `unreachable!()` arm of
`Msg::ChangeItem`. -/
inductive EditOutcome where
  | replaced (b : Building) (diag : Bool)
  | noop
  | rejected
  | panicked

/-- `Msg::ChangeType` from `node_display.rs`: on a building whose
identity differs from `id`, set the identity to `Some(id)` and, when the
Database knows `id`, reconcile the settings for the new kind; when the
Database does not know `id`, keep the old settings and warn.  Identity
unchanged is a no-op; a non-building is a reported rejection. -/
def changeType (db : Database) (node : Node) (id : BuildingId) : EditOutcome :=
  match node with
  | .group _ _ => .rejected
  | .building building =>
    if building.building = some id then .noop
    else
      match db.get id with
      | some bt =>
        .replaced { building := some id,
                    settings := building.settings.build_new_settings bt.kind } false
      | none =>
        .replaced { building := some id, settings := building.settings } true

/-- `Msg::ChangeRecipe` from `node_display.rs`: valid only on a building
whose identity resolves in the Database to a Manufacturer kind carrying
`id` among its `available_recipes`; otherwise a reported rejection.  On
success only the `recipe` field of Manufacturer settings is replaced; if
the current settings are not Manufacturer-shaped they are rebuilt with
only `clock_speed` carried over, with a diagnostic. -/
def changeRecipe (db : Database) (node : Node) (id : RecipeId) : EditOutcome :=
  match node with
  | .group _ _ => .rejected
  | .building building =>
    match building.building with
    | none => .rejected
    | some building_id =>
      match db.get building_id with
      | some { kind := BuildingKind.Manufacturer m } =>
        if id ∈ m.available_recipes then
          match building.settings with
          | .Manufacturer ms =>
            .replaced
              { building with settings := .Manufacturer { ms with recipe := some id } }
              false
          | s =>
            .replaced
              { building with
                settings := .Manufacturer { recipe := some id, clock_speed := s.clock_speed } }
              true
        else .rejected
      | some _ => .rejected
      | none => .rejected

/-- First match of `Msg::ChangeItem` from `node_display.rs`: resolve the
building's identity in the Database and check `id` against the kind's
allow-list, returning the `BuildingKindId` tag on success and `none` on
any of the rejection paths (unset identity, unknown identity, kind other
than Miner, Generator or Pump, or item not in the allow-list). -/
def changeItemKindId (db : Database) (building : Building) (id : ItemId) :
    Option BuildingKindId :=
  match building.building with
  | none => none
  | some building_id =>
    match db.get building_id with
    | some { kind := BuildingKind.Miner m } =>
      if id ∈ m.allowed_resources then some .Miner else none
    | some { kind := BuildingKind.Generator g } =>
      if id ∈ g.allowed_fuel then some .Generator else none
    | some { kind := BuildingKind.Pump p } =>
      if id ∈ p.allowed_resources then some .Pump else none
    | some _ => none
    | none => none

/-- Second match of `Msg::ChangeItem` from `node_display.rs`: build the
new settings from the resolved kind tag and the current settings, setting
the `resource` or `fuel` field and preserving `clock_speed`; the boolean
records the InvariantRepair diagnostic emitted when the settings variant
did not match the resolved kind.  `none` is the `unreachable!()` arm. -/
def changeItemSettings (kind_id : BuildingKindId) (settings : BuildingSettings)
    (id : ItemId) : Option (BuildingSettings × Bool) :=
  match kind_id, settings with
  | .Miner, .Miner ms => some (.Miner { ms with resource := some id }, false)
  | .Miner, s =>
    some (.Miner { resource := some id, clock_speed := s.clock_speed }, true)
  | .Generator, .Generator gs => some (.Generator { gs with fuel := some id }, false)
  | .Generator, s =>
    some (.Generator { fuel := some id, clock_speed := s.clock_speed }, true)
  | .Pump, .Pump ps => some (.Pump { ps with resource := some id }, false)
  | .Pump, s =>
    some (.Pump { resource := some id, clock_speed := s.clock_speed }, true)
  | _, _ => none

/-- `Msg::ChangeItem` from `node_display.rs`: resolve the kind tag,
then build the new settings and emit the replacement building; any
rejection path reported in the first match leaves the tree unchanged. -/
def changeItem (db : Database) (node : Node) (id : ItemId) : EditOutcome :=
  match node with
  | .group _ _ => .rejected
  | .building building =>
    match changeItemKindId db building id with
    | none => .rejected
    | some kind_id =>
      match changeItemSettings kind_id building.settings id with
      | some (s, diag) => .replaced { building with settings := s } diag
      | none => .panicked

/-- The building kind that the Database resolves for a building's
identity: `none` when the identity is unset or unknown. -/
def resolvedKindId (db : Database) (b : Building) : Option BuildingKindId :=
  match b.building with
  | none => none
  | some bid => (db.get bid).map (fun bt => bt.kind.kindId)

/-- The settings-shape invariant: whenever the building's identity
resolves in the Database, the active settings variant's kind matches the
resolved kind (no constraint when the identity is unset or unknown). -/
def SettingsMatch (db : Database) (b : Building) : Prop :=
  ∀ k, resolvedKindId db b = some k → b.settings.kindId = k

/-- A building-identity edit operation with its payload. -/
inductive EditOp where
  | changeType (id : BuildingId)
  | changeRecipe (id : RecipeId)
  | changeItem (id : ItemId)

/-- Dispatch of a building-identity edit to its handler. -/
def dispatchEdit (db : Database) (node : Node) : EditOp → EditOutcome
  | .changeType id => changeType db node id
  | .changeRecipe id => changeRecipe db node id
  | .changeItem id => changeItem db node id

/-- The node after one edit: the emitted replacement when the handler
produced one, the unchanged node otherwise. -/
def applyEdit (db : Database) (node : Node) (op : EditOp) : Node :=
  match dispatchEdit db node op with
  | .replaced b _ => .building b
  | _ => node

/-- The node after a sequence of building-identity edits. -/
def applyEdits (db : Database) (node : Node) (ops : List EditOp) : Node :=
  ops.foldl (applyEdit db) node

mutual

/-- The leaf Building payloads of a node, in left-to-right order. -/
def Node.buildings : Node → List Building
  | .group _ cs => buildingsOfList cs
  | .building b => [b]

/-- The leaf Building payloads of a child sequence, in order. -/
def buildingsOfList : List Node → List Building
  | [] => []
  | n :: rest => n.buildings ++ buildingsOfList rest

end

/-! Helper lemmas shared by the claim theorems. -/

theorem buildingsOfList_cons (n : Node) (rest : List Node) :
    buildingsOfList (n :: rest) = n.buildings ++ buildingsOfList rest := by
  simp [buildingsOfList]

theorem buildingsOfList_append (l1 l2 : List Node) :
    buildingsOfList (l1 ++ l2) = buildingsOfList l1 ++ buildingsOfList l2 := by
  induction l1 with
  | nil => simp [buildingsOfList]
  | cons n rest ih => simp [buildingsOfList_cons, ih]

/-- The reconciled settings always carry the shape of the requested kind. -/
theorem build_new_settings_kindId (old : BuildingSettings) (kind : BuildingKind) :
    (old.build_new_settings kind).kindId = kind.kindId := by
  unfold BuildingSettings.build_new_settings
  by_cases h : old.kindId = kind.kindId
  · simp [h]
  · simp [h, defaultSettingsFor]
    cases kind <;> simp [BuildingSettings.kindId, BuildingKind.kindId]

/-! Claim theorems. -/

/-- C7: on a Group with `idx` in range, `copy_child` emits a replacement
whose children are the original children with a value-equal duplicate of
the child at `idx` inserted immediately after position `idx`, all other
children and their order preserved. -/
theorem copyChild_duplicates_at_next_index (gname : String) (cs : List Node)
    (idx : Nat) (h : idx < cs.length) :
    copyChild (Node.group gname cs) idx =
      GroupEditOutcome.replaced gname
        (cs.take (idx + 1) ++ cs.get ⟨idx, h⟩ :: cs.drop (idx + 1)) := by
  simp [copyChild, h, vecInsert]

/-- Witness for C7 at the spec scenario: children [A, B, C] with index 1
become [A, B, B, C], the duplicate value-equal to B at the next index. -/
theorem copyChild_duplicates_at_next_index_witness :
    copyChild
        (Node.group "Root" [Node.group "A" [], Node.group "B" [], Node.group "C" []]) 1 =
      GroupEditOutcome.replaced "Root"
        [Node.group "A" [], Node.group "B" [], Node.group "B" [], Node.group "C" []] := by
  rw [copyChild_duplicates_at_next_index "Root"
    [Node.group "A" [], Node.group "B" [], Node.group "C" []] 1 (by decide)]
  rfl

/-- C6: an out-of-range index makes `replace_child`, `delete_child` and
`copy_child` reported rejections with no replacement, and every
Group-only operation invoked on a Building node is likewise a reported
rejection with no replacement; nothing panics and the tree is unchanged. -/
theorem group_ops_rejected_nonfatally (gname : String) (cs : List Node)
    (idx : Nat) (hidx : cs.length ≤ idx) (b : Building)
    (replacement child : Node) (newName : String) :
    replaceChild (Node.group gname cs) idx replacement = GroupEditOutcome.rejected ∧
    deleteChild (Node.group gname cs) idx = GroupEditOutcome.rejected ∧
    copyChild (Node.group gname cs) idx = GroupEditOutcome.rejected ∧
    replaceChild (Node.building b) idx replacement = GroupEditOutcome.rejected ∧
    deleteChild (Node.building b) idx = GroupEditOutcome.rejected ∧
    copyChild (Node.building b) idx = GroupEditOutcome.rejected ∧
    addChild (Node.building b) child = GroupEditOutcome.rejected ∧
    rename (Node.building b) newName = GroupEditOutcome.rejected := by
  refine ⟨?_, ?_, ?_, rfl, rfl, rfl, rfl, rfl⟩ <;>
    simp [replaceChild, deleteChild, copyChild, Nat.not_lt.mpr hidx]

/-- Witness for C6 at a concrete out-of-range index and a concrete
building node. -/
theorem group_ops_rejected_nonfatally_witness :
    replaceChild (Node.group "G" [Node.group "A" []]) 3 (Node.group "B" []) =
        GroupEditOutcome.rejected ∧
      deleteChild (Node.group "G" [Node.group "A" []]) 3 = GroupEditOutcome.rejected ∧
      copyChild (Node.group "G" [Node.group "A" []]) 3 = GroupEditOutcome.rejected ∧
      replaceChild (Node.building { building := none, settings := .Manufacturer { recipe := none, clock_speed := 0 } }) 3
          (Node.group "B" []) = GroupEditOutcome.rejected ∧
      deleteChild (Node.building { building := none, settings := .Manufacturer { recipe := none, clock_speed := 0 } }) 3 =
        GroupEditOutcome.rejected ∧
      copyChild (Node.building { building := none, settings := .Manufacturer { recipe := none, clock_speed := 0 } }) 3 =
        GroupEditOutcome.rejected ∧
      addChild (Node.building { building := none, settings := .Manufacturer { recipe := none, clock_speed := 0 } })
          (Node.group "B" []) = GroupEditOutcome.rejected ∧
      rename (Node.building { building := none, settings := .Manufacturer { recipe := none, clock_speed := 0 } }) "N" =
        GroupEditOutcome.rejected :=
  group_ops_rejected_nonfatally "G" [Node.group "A" []] 3 (by decide)
    { building := none, settings := .Manufacturer { recipe := none, clock_speed := 0 } }
    (Node.group "B" []) (Node.group "B" []) "N"

/-- A small concrete Database shared by the witnesses: building 1 is a
Miner allowing resource 7, building 2 a Manufacturer allowing recipe 10,
building 3 a Generator allowing fuel 8, building 4 a Pump allowing
resource 9. -/
def dbW : Database :=
  [(1, { kind := .Miner { allowed_resources := [7] } }),
   (2, { kind := .Manufacturer { available_recipes := [10] } }),
   (3, { kind := .Generator { allowed_fuel := [8] } }),
   (4, { kind := .Pump { allowed_resources := [9] } })]

/-- C5: `change_building_identity` is a silent no-op when the identity is
unchanged; when it differs, the identity is set to the new id and the
settings are rebuilt by the Reconciler when the Database knows the id,
while an unknown id still updates the identity but keeps the settings
unreconciled and reports a diagnostic; on a non-building it is a reported
rejection with no change. -/
theorem changeType_cases (db : Database) (b : Building) (id : BuildingId)
    (gname : String) (cs : List Node) :
    (b.building = some id → changeType db (Node.building b) id = EditOutcome.noop) ∧
    (b.building ≠ some id → ∀ bt, db.get id = some bt →
      changeType db (Node.building b) id =
        EditOutcome.replaced
          { building := some id, settings := b.settings.build_new_settings bt.kind }
          false) ∧
    (b.building ≠ some id → db.get id = none →
      changeType db (Node.building b) id =
        EditOutcome.replaced { building := some id, settings := b.settings } true) ∧
    changeType db (Node.group gname cs) id = EditOutcome.rejected := by
  refine ⟨?_, ?_, ?_, rfl⟩
  · intro h
    simp [changeType, h]
  · intro h bt hbt
    simp [changeType, h, hbt]
  · intro h hid
    simp [changeType, h, hid]

/-- A concrete building used by the witnesses: identity 1 (a Miner in
the witness Database) with matching Miner settings at clock speed 5. -/
def bMinerW : Building :=
  { building := some 1, settings := .Miner { resource := none, clock_speed := 5 } }

/-- A concrete building used by the witnesses: unset identity with
Manufacturer settings at clock speed 5. -/
def bManW : Building :=
  { building := none, settings := .Manufacturer { recipe := none, clock_speed := 5 } }

/-- Witness for C5: the no-op, known-id, and unknown-id cases of
`change_building_identity` at concrete inputs over the witness Database. -/
theorem changeType_cases_witness :
    changeType dbW (Node.building bMinerW) 1 = EditOutcome.noop ∧
    changeType dbW (Node.building bManW) 1 =
      EditOutcome.replaced
        { building := some 1,
          settings := bManW.settings.build_new_settings
            (BuildingKind.Miner { allowed_resources := [7] }) } false ∧
    changeType dbW (Node.building bManW) 99 =
      EditOutcome.replaced { building := some 99, settings := bManW.settings } true :=
  ⟨(changeType_cases dbW bMinerW 1 "G" []).1 rfl,
   (changeType_cases dbW bManW 1 "G" []).2.1 (by decide)
     { kind := .Miner { allowed_resources := [7] } } rfl,
   (changeType_cases dbW bManW 99 "G" []).2.2.1 (by decide) rfl⟩

/-- C3: `change_recipe` succeeds only on a Building whose identity
resolves to a Manufacturer kind with the new recipe among its
`available_recipes`: on success only the `recipe` field is replaced with
`clock_speed` preserved, Manufacturer settings being rebuilt from
defaults (with a diagnostic) when the current variant is not
Manufacturer-shaped; in every other case (non-building, unset identity,
unknown identity, non-manufacturer kind, recipe not available) the
operation is a reported rejection and the tree is unchanged. -/
theorem changeRecipe_cases (db : Database) (node : Node) (id : RecipeId) :
    (∀ b, node = Node.building b → ∀ bid, b.building = some bid →
      ∀ m, db.get bid = some { kind := BuildingKind.Manufacturer m } →
        (id ∈ m.available_recipes →
          (∀ ms, b.settings = BuildingSettings.Manufacturer ms →
            changeRecipe db node id =
              EditOutcome.replaced
                { b with settings := .Manufacturer { ms with recipe := some id } }
                false) ∧
          (b.settings.kindId ≠ BuildingKindId.Manufacturer →
            changeRecipe db node id =
              EditOutcome.replaced
                { b with settings := (BuildingSettings.Manufacturer
                    { recipe := some id, clock_speed := b.settings.clock_speed }) }
                true)) ∧
        (id ∉ m.available_recipes → changeRecipe db node id = EditOutcome.rejected)) ∧
    (∀ b, node = Node.building b → b.building = none →
      changeRecipe db node id = EditOutcome.rejected) ∧
    (∀ b, node = Node.building b → ∀ bid, b.building = some bid →
      db.get bid = none → changeRecipe db node id = EditOutcome.rejected) ∧
    (∀ b, node = Node.building b → ∀ bid, b.building = some bid →
      ∀ bt, db.get bid = some bt → bt.kind.kindId ≠ BuildingKindId.Manufacturer →
        changeRecipe db node id = EditOutcome.rejected) ∧
    (∀ gname cs, node = Node.group gname cs →
      changeRecipe db node id = EditOutcome.rejected) ∧
    (changeRecipe db node id = EditOutcome.rejected →
      applyEdit db node (EditOp.changeRecipe id) = node) := by
  refine ⟨?_, ?_, ?_, ?_, ?_, ?_⟩
  · rintro b rfl bid hbid m hm
    refine ⟨fun hmem => ⟨?_, ?_⟩, fun hmem => ?_⟩
    · intro ms hms
      simp [changeRecipe, hbid, hm, hmem, hms]
    · intro hkind
      cases hs : b.settings with
      | Manufacturer ms => rw [hs] at hkind; exact absurd rfl hkind
      | Miner ms =>
        simp [changeRecipe, hbid, hm, hmem, hs, BuildingSettings.clock_speed]
      | Generator gs =>
        simp [changeRecipe, hbid, hm, hmem, hs, BuildingSettings.clock_speed]
      | Pump ps =>
        simp [changeRecipe, hbid, hm, hmem, hs, BuildingSettings.clock_speed]
    · simp [changeRecipe, hbid, hm, hmem]
  · rintro b rfl hb
    simp [changeRecipe, hb]
  · rintro b rfl bid hbid hdb
    simp [changeRecipe, hbid, hdb]
  · rintro b rfl bid hbid bt hdb hkind
    obtain ⟨kind⟩ := bt
    cases kind with
    | Manufacturer m => exact absurd rfl hkind
    | Miner m => simp [changeRecipe, hbid, hdb]
    | Generator g => simp [changeRecipe, hbid, hdb]
    | Pump p => simp [changeRecipe, hbid, hdb]
  · rintro gname cs rfl
    rfl
  · intro h
    simp [applyEdit, dispatchEdit, h]

/-- A concrete building used by the witnesses: identity 2 (a Manufacturer
in the witness Database) with matching Manufacturer settings. -/
def bMan2W : Building :=
  { building := some 2, settings := .Manufacturer { recipe := none, clock_speed := 5 } }

/-- A concrete building used by the witnesses: identity 2 (a Manufacturer
in the witness Database) with mismatched Miner settings. -/
def bMis2W : Building :=
  { building := some 2, settings := .Miner { resource := none, clock_speed := 5 } }

/-- Witness for C3: success with matched settings, success with
mismatched settings rebuilt from defaults, and the InvalidSelection
rejection leaving the tree unchanged, over the witness Database. -/
theorem changeRecipe_cases_witness :
    changeRecipe dbW (Node.building bMan2W) 10 =
      EditOutcome.replaced
        { bMan2W with settings := .Manufacturer { recipe := some 10, clock_speed := 5 } }
        false ∧
    changeRecipe dbW (Node.building bMis2W) 10 =
      EditOutcome.replaced
        { bMis2W with settings := .Manufacturer { recipe := some 10, clock_speed := 5 } }
        true ∧
    changeRecipe dbW (Node.building bMan2W) 11 = EditOutcome.rejected ∧
    applyEdit dbW (Node.building bMan2W) (EditOp.changeRecipe 11) =
      Node.building bMan2W := by
  have hmain := changeRecipe_cases dbW (Node.building bMan2W) 10
  have hmis := changeRecipe_cases dbW (Node.building bMis2W) 10
  have hrej := changeRecipe_cases dbW (Node.building bMan2W) 11
  have h3 : changeRecipe dbW (Node.building bMan2W) 11 = EditOutcome.rejected :=
    ((hrej.1 bMan2W rfl 2 rfl { available_recipes := [10] } rfl).2) (by decide)
  refine ⟨?_, ?_, h3, hrej.2.2.2.2.2 h3⟩
  · exact ((hmain.1 bMan2W rfl 2 rfl { available_recipes := [10] } rfl).1
      (by decide)).1 { recipe := none, clock_speed := 5 } rfl
  · exact ((hmis.1 bMis2W rfl 2 rfl { available_recipes := [10] } rfl).1
      (by decide)).2 (by decide)

/-- C4: `change_item` succeeds only on a Building whose identity resolves
to a Miner, Generator or Pump kind with the new item in that kind's
allow-list (`allowed_resources` for Miner and Pump, `allowed_fuel` for
Generator): on success the `resource` or `fuel` field of the matching
variant is set with `clock_speed` preserved, the settings being rebuilt
from that kind's defaults (with a diagnostic) when the current variant
does not match; in every other case the operation is a reported rejection
and the tree is unchanged. -/
theorem changeItem_cases (db : Database) (node : Node) (id : ItemId) :
    (∀ b, node = Node.building b → ∀ bid, b.building = some bid →
      (∀ m, db.get bid = some { kind := BuildingKind.Miner m } →
        (id ∈ m.allowed_resources →
          (∀ ms, b.settings = BuildingSettings.Miner ms →
            changeItem db node id =
              EditOutcome.replaced
                { b with settings := .Miner { ms with resource := some id } } false) ∧
          (b.settings.kindId ≠ BuildingKindId.Miner →
            changeItem db node id =
              EditOutcome.replaced
                { b with settings := (BuildingSettings.Miner
                    { resource := some id, clock_speed := b.settings.clock_speed }) }
                true)) ∧
        (id ∉ m.allowed_resources → changeItem db node id = EditOutcome.rejected)) ∧
      (∀ g, db.get bid = some { kind := BuildingKind.Generator g } →
        (id ∈ g.allowed_fuel →
          (∀ gs, b.settings = BuildingSettings.Generator gs →
            changeItem db node id =
              EditOutcome.replaced
                { b with settings := .Generator { gs with fuel := some id } } false) ∧
          (b.settings.kindId ≠ BuildingKindId.Generator →
            changeItem db node id =
              EditOutcome.replaced
                { b with settings := (BuildingSettings.Generator
                    { fuel := some id, clock_speed := b.settings.clock_speed }) }
                true)) ∧
        (id ∉ g.allowed_fuel → changeItem db node id = EditOutcome.rejected)) ∧
      (∀ p, db.get bid = some { kind := BuildingKind.Pump p } →
        (id ∈ p.allowed_resources →
          (∀ ps, b.settings = BuildingSettings.Pump ps →
            changeItem db node id =
              EditOutcome.replaced
                { b with settings := .Pump { ps with resource := some id } } false) ∧
          (b.settings.kindId ≠ BuildingKindId.Pump →
            changeItem db node id =
              EditOutcome.replaced
                { b with settings := (BuildingSettings.Pump
                    { resource := some id, clock_speed := b.settings.clock_speed }) }
                true)) ∧
        (id ∉ p.allowed_resources → changeItem db node id = EditOutcome.rejected)) ∧
      (∀ m, db.get bid = some { kind := BuildingKind.Manufacturer m } →
        changeItem db node id = EditOutcome.rejected) ∧
      (db.get bid = none → changeItem db node id = EditOutcome.rejected)) ∧
    (∀ b, node = Node.building b → b.building = none →
      changeItem db node id = EditOutcome.rejected) ∧
    (∀ gname cs, node = Node.group gname cs →
      changeItem db node id = EditOutcome.rejected) ∧
    (changeItem db node id = EditOutcome.rejected →
      applyEdit db node (EditOp.changeItem id) = node) := by
  refine ⟨?_, ?_, ?_, ?_⟩
  · rintro b rfl bid hbid
    refine ⟨fun m hm => ⟨fun hmem => ⟨?_, ?_⟩, fun hmem => ?_⟩,
            fun g hg => ⟨fun hmem => ⟨?_, ?_⟩, fun hmem => ?_⟩,
            fun p hp => ⟨fun hmem => ⟨?_, ?_⟩, fun hmem => ?_⟩,
            fun m hm => ?_, fun hnone => ?_⟩
    · intro ms hms
      simp [changeItem, changeItemKindId, changeItemSettings, hbid, hm, hmem, hms]
    · intro hkind
      cases hs : b.settings with
      | Miner ms => rw [hs] at hkind; exact absurd rfl hkind
      | Manufacturer ms =>
        simp [changeItem, changeItemKindId, changeItemSettings, hbid, hm, hmem, hs,
          BuildingSettings.clock_speed]
      | Generator gs =>
        simp [changeItem, changeItemKindId, changeItemSettings, hbid, hm, hmem, hs,
          BuildingSettings.clock_speed]
      | Pump ps =>
        simp [changeItem, changeItemKindId, changeItemSettings, hbid, hm, hmem, hs,
          BuildingSettings.clock_speed]
    · simp [changeItem, changeItemKindId, hbid, hm, hmem]
    · intro gs hgs
      simp [changeItem, changeItemKindId, changeItemSettings, hbid, hg, hmem, hgs]
    · intro hkind
      cases hs : b.settings with
      | Generator gs => rw [hs] at hkind; exact absurd rfl hkind
      | Manufacturer ms =>
        simp [changeItem, changeItemKindId, changeItemSettings, hbid, hg, hmem, hs,
          BuildingSettings.clock_speed]
      | Miner ms =>
        simp [changeItem, changeItemKindId, changeItemSettings, hbid, hg, hmem, hs,
          BuildingSettings.clock_speed]
      | Pump ps =>
        simp [changeItem, changeItemKindId, changeItemSettings, hbid, hg, hmem, hs,
          BuildingSettings.clock_speed]
    · simp [changeItem, changeItemKindId, hbid, hg, hmem]
    · intro ps hps
      simp [changeItem, changeItemKindId, changeItemSettings, hbid, hp, hmem, hps]
    · intro hkind
      cases hs : b.settings with
      | Pump ps => rw [hs] at hkind; exact absurd rfl hkind
      | Manufacturer ms =>
        simp [changeItem, changeItemKindId, changeItemSettings, hbid, hp, hmem, hs,
          BuildingSettings.clock_speed]
      | Miner ms =>
        simp [changeItem, changeItemKindId, changeItemSettings, hbid, hp, hmem, hs,
          BuildingSettings.clock_speed]
      | Generator gs =>
        simp [changeItem, changeItemKindId, changeItemSettings, hbid, hp, hmem, hs,
          BuildingSettings.clock_speed]
    · simp [changeItem, changeItemKindId, hbid, hp, hmem]
    · simp [changeItem, changeItemKindId, hbid, hm]
    · simp [changeItem, changeItemKindId, hbid, hnone]
  · rintro b rfl hb
    simp [changeItem, changeItemKindId, hb]
  · rintro gname cs rfl
    rfl
  · intro h
    simp [applyEdit, dispatchEdit, h]

/-- A concrete building used by the witnesses: identity 1 (a Miner in the
witness Database) with mismatched Manufacturer settings, the spec's
concrete change_item scenario. -/
def bMisMinerW : Building :=
  { building := some 1, settings := .Manufacturer { recipe := none, clock_speed := 5 } }

/-- Witness for C4 at the spec scenario: a Miner building with mismatched
Manufacturer settings undergoing change_item(7) yields Miner settings
with resource Some(7) and preserved clock speed; matched Miner settings
are updated in place; an item outside the allow-list is rejected with the
tree unchanged. -/
theorem changeItem_cases_witness :
    changeItem dbW (Node.building bMisMinerW) 7 =
      EditOutcome.replaced
        { bMisMinerW with settings := .Miner { resource := some 7, clock_speed := 5 } }
        true ∧
    changeItem dbW (Node.building bMinerW) 7 =
      EditOutcome.replaced
        { bMinerW with settings := .Miner { resource := some 7, clock_speed := 5 } }
        false ∧
    changeItem dbW (Node.building bMinerW) 99 = EditOutcome.rejected ∧
    applyEdit dbW (Node.building bMinerW) (EditOp.changeItem 99) =
      Node.building bMinerW := by
  have hmis := changeItem_cases dbW (Node.building bMisMinerW) 7
  have hmat := changeItem_cases dbW (Node.building bMinerW) 7
  have hrej := changeItem_cases dbW (Node.building bMinerW) 99
  have h3 : changeItem dbW (Node.building bMinerW) 99 = EditOutcome.rejected :=
    ((hrej.1 bMinerW rfl 1 rfl).1 { allowed_resources := [7] } rfl).2 (by decide)
  refine ⟨?_, ?_, h3, hrej.2.2.2 h3⟩
  · exact (((hmis.1 bMisMinerW rfl 1 rfl).1 { allowed_resources := [7] } rfl).1
      (by decide)).2 (by decide)
  · exact (((hmat.1 bMinerW rfl 1 rfl).1 { allowed_resources := [7] } rfl).1
      (by decide)).1 { resource := none, clock_speed := 5 } rfl

/-- The first match of the ChangeItem handler only ever produces the
Miner, Generator or Pump tag, never Manufacturer. -/
theorem changeItemKindId_ne_manufacturer (db : Database) (b : Building) (id : ItemId)
    (k : BuildingKindId) (h : changeItemKindId db b id = some k) :
    k ≠ BuildingKindId.Manufacturer := by
  unfold changeItemKindId at h
  split at h
  · simp at h
  · split at h
    · split_ifs at h <;> cases k <;> simp_all
    · split_ifs at h <;> cases k <;> simp_all
    · split_ifs at h <;> cases k <;> simp_all
    · simp at h
    · simp at h

/-- The settings-construction match of the ChangeItem handler succeeds on
every kind tag other than Manufacturer. -/
theorem changeItemSettings_isSome (k : BuildingKindId) (s : BuildingSettings)
    (id : ItemId) (hk : k ≠ BuildingKindId.Manufacturer) :
    (changeItemSettings k s id).isSome := by
  cases k with
  | Manufacturer => exact absurd rfl hk
  | Miner => cases s <;> simp [changeItemSettings]
  | Generator => cases s <;> simp [changeItemSettings]
  | Pump => cases s <;> simp [changeItemSettings]

/-- C10: the ChangeItem handler never reaches the `unreachable!()` arm of
its settings-construction match, because the kind tag produced by the
preceding database match is always Miner, Generator or Pump. -/
theorem changeItem_never_panics (db : Database) (node : Node) (id : ItemId) :
    changeItem db node id ≠ EditOutcome.panicked := by
  cases node with
  | group gname cs => simp [changeItem]
  | building b =>
    simp only [changeItem]
    cases hkid : changeItemKindId db b id with
    | none => simp
    | some k =>
      have hk := changeItemKindId_ne_manufacturer db b id k hkid
      cases hs : changeItemSettings k b.settings id with
      | none =>
        have hsome := changeItemSettings_isSome k b.settings id hk
        rw [hs] at hsome
        simp at hsome
      | some sd =>
        cases sd
        simp [hs]

/-- A kind tag produced by the first ChangeItem match is exactly the kind
the Database resolves for the building's identity. -/
theorem changeItemKindId_resolved (db : Database) (b : Building) (id : ItemId)
    (k : BuildingKindId) (h : changeItemKindId db b id = some k) :
    resolvedKindId db b = some k := by
  cases hbid : b.building with
  | none => simp [changeItemKindId, hbid] at h
  | some bid =>
    cases hget : db.get bid with
    | none => simp [changeItemKindId, hbid, hget] at h
    | some bt =>
      obtain ⟨kind⟩ := bt
      cases kind with
      | Manufacturer m => simp [changeItemKindId, hbid, hget] at h
      | Miner m =>
        simp [changeItemKindId, hbid, hget] at h
        simp [resolvedKindId, hbid, hget, BuildingKind.kindId, h.2]
      | Generator g =>
        simp [changeItemKindId, hbid, hget] at h
        simp [resolvedKindId, hbid, hget, BuildingKind.kindId, h.2]
      | Pump p =>
        simp [changeItemKindId, hbid, hget] at h
        simp [resolvedKindId, hbid, hget, BuildingKind.kindId, h.2]

/-- The settings built by the second ChangeItem match carry the shape of
the kind tag. -/
theorem changeItemSettings_kindId (k : BuildingKindId) (st : BuildingSettings)
    (id : ItemId) (s : BuildingSettings) (d : Bool)
    (h : changeItemSettings k st id = some (s, d)) : s.kindId = k := by
  cases k <;> cases st <;> simp [changeItemSettings] at h <;>
    (obtain ⟨h1, h2⟩ := h; subst h1; rfl)

/-- Every replacement emitted by a building-identity edit satisfies the
settings-shape invariant, whatever the starting settings were. -/
theorem dispatchEdit_replaced_settings_match (db : Database) (node : Node)
    (op : EditOp) (b2 : Building) (diag : Bool)
    (h : dispatchEdit db node op = EditOutcome.replaced b2 diag) :
    SettingsMatch db b2 := by
  cases op with
  | changeType id =>
    cases node with
    | group gname cs => simp [dispatchEdit, changeType] at h
    | building b =>
      simp only [dispatchEdit, changeType] at h
      by_cases heq : b.building = some id
      · simp [heq] at h
      · rw [if_neg heq] at h
        cases hget : db.get id with
        | some bt =>
          rw [hget] at h
          cases h
          intro k hk
          simp [resolvedKindId, hget] at hk
          rw [build_new_settings_kindId, hk]
        | none =>
          rw [hget] at h
          cases h
          intro k hk
          simp [resolvedKindId, hget] at hk
  | changeRecipe id =>
    cases node with
    | group gname cs => simp [dispatchEdit, changeRecipe] at h
    | building b =>
      simp only [dispatchEdit, changeRecipe] at h
      cases hbid : b.building with
      | none => simp [hbid] at h
      | some bid =>
        cases hget : db.get bid with
        | none => simp [hbid, hget] at h
        | some bt =>
          obtain ⟨kind⟩ := bt
          cases kind with
          | Manufacturer m =>
            simp only [hbid, hget] at h
            split_ifs at h with hmem
            cases hs : b.settings <;> rw [hs] at h <;> cases h <;>
              (intro k hk
               simp [resolvedKindId, hbid, hget, BuildingKind.kindId] at hk
               simp [BuildingSettings.kindId, ← hk])
          | Miner m => simp [hbid, hget] at h
          | Generator g => simp [hbid, hget] at h
          | Pump p => simp [hbid, hget] at h
  | changeItem id =>
    cases node with
    | group gname cs => simp [dispatchEdit, changeItem] at h
    | building b =>
      simp only [dispatchEdit, changeItem] at h
      cases hkid : changeItemKindId db b id with
      | none => simp [hkid] at h
      | some k0 =>
        simp only [hkid] at h
        cases hs : changeItemSettings k0 b.settings id with
        | none => simp [hs] at h
        | some sd =>
          obtain ⟨s, d⟩ := sd
          have hsk := changeItemSettings_kindId k0 b.settings id s d hs
          simp only [hs] at h
          cases h
          intro k hk
          have hres := changeItemKindId_resolved db b id k0 hkid
          have hbeq : resolvedKindId db { b with settings := s } = resolvedKindId db b := rfl
          rw [hbeq, hres] at hk
          cases hk
          exact hsk

/-- C1: a Building node subjected to any sequence of
change_building_identity, change_recipe and change_item operations is
either untouched (every operation was a no-op or a rejection) or ends as
a Building whose settings variant matches the kind the Database resolves
for its identity, with no constraint when the identity is unset or
unknown; no edit operation ever leaves the settings variant mismatched
with the resolved kind. -/
theorem settings_shape_invariant (db : Database) (b : Building) (ops : List EditOp) :
    ∃ b2, applyEdits db (Node.building b) ops = Node.building b2 ∧
      (b2 = b ∨ SettingsMatch db b2) := by
  induction ops generalizing b with
  | nil => exact ⟨b, rfl, Or.inl rfl⟩
  | cons op rest ih =>
    have step : applyEdits db (Node.building b) (op :: rest) =
        applyEdits db (applyEdit db (Node.building b) op) rest := rfl
    cases hd : dispatchEdit db (Node.building b) op with
    | replaced bR diagR =>
      have hmatch := dispatchEdit_replaced_settings_match db (Node.building b) op bR diagR hd
      obtain ⟨b2, h1, h2⟩ := ih bR
      refine ⟨b2, ?_, Or.inr ?_⟩
      · rw [step, show applyEdit db (Node.building b) op = Node.building bR by
          simp [applyEdit, hd]]
        exact h1
      · rcases h2 with he | hm
        · exact he ▸ hmatch
        · exact hm
    | noop =>
      obtain ⟨b2, h1, h2⟩ := ih b
      refine ⟨b2, ?_, h2⟩
      rw [step, show applyEdit db (Node.building b) op = Node.building b by
        simp [applyEdit, hd]]
      exact h1
    | rejected =>
      obtain ⟨b2, h1, h2⟩ := ih b
      refine ⟨b2, ?_, h2⟩
      rw [step, show applyEdit db (Node.building b) op = Node.building b by
        simp [applyEdit, hd]]
      exact h1
    | panicked =>
      obtain ⟨b2, h1, h2⟩ := ih b
      refine ⟨b2, ?_, h2⟩
      rw [step, show applyEdit db (Node.building b) op = Node.building b by
        simp [applyEdit, hd]]
      exact h1

theorem removeChildAt_nil (cs : List Node) : removeChildAt cs [] = none := rfl

theorem isPrefixOf_append_self (l1 l2 : List Nat) : l1.isPrefixOf (l1 ++ l2) = true := by
  induction l1 with
  | nil => simp [List.isPrefixOf]
  | cons a t ih => simpa [List.isPrefixOf] using ih

/-- Adjusting a destination equal to the source leaves it unchanged: the
insertion point is exactly the removal point. -/
theorem adjustDest_self (p : Path) (hp : p ≠ []) : adjustDest p p = some p := by
  rcases List.eq_nil_or_concat p with rfl | ⟨q, a, hqa⟩
  · exact absurd rfl hp
  · subst hqa
    rw [List.concat_eq_append]
    simp [adjustDest, List.getLast?_concat, List.dropLast_concat, isPrefixOf_append_self,
      List.get?_append_right, Nat.sub_self]

/-- C8: the Move Engine is a no-op on every degenerate request: moving a
path onto itself always returns no-op (the original group is kept), as
does a source path invalid per the Path Router, any request whose source
and destination resolve to the same final position after index
adjustment, and any invalid destination path (one descending into the
removed subtree, which the adjustment rejects, or one the insertion step
finds invalid per the Path Router). -/
theorem move_child_noop_on_degenerate :
    (∀ (cs : List Node) (p : Path), move_child cs p p = none) ∧
    (∀ (cs : List Node) (src dest : Path), removeChildAt cs src = none →
      move_child cs src dest = none) ∧
    (∀ (cs : List Node) (src dest : Path) (sm : List Node × Node) (dest2 : Path),
      removeChildAt cs src = some sm → adjustDest src dest = some dest2 →
      dest2 = src → move_child cs src dest = none) ∧
    (∀ (cs : List Node) (src dest : Path) (sm : List Node × Node),
      removeChildAt cs src = some sm → adjustDest src dest = none →
      move_child cs src dest = none) ∧
    (∀ (cs : List Node) (src dest : Path) (sm : List Node × Node) (dest2 : Path),
      removeChildAt cs src = some sm → adjustDest src dest = some dest2 →
      dest2 ≠ src → insertChildAt sm.1 dest2 sm.2 = none →
      move_child cs src dest = none) := by
  refine ⟨?_, ?_, ?_, ?_, ?_⟩
  · intro cs p
    cases hrem : removeChildAt cs p with
    | none => simp [move_child, hrem]
    | some sm =>
      obtain ⟨shrunk, moved⟩ := sm
      have hp : p ≠ [] := by
        rintro rfl
        rw [removeChildAt_nil] at hrem
        exact Option.noConfusion hrem
      simp [move_child, hrem, adjustDest_self p hp]
  · intro cs src dest h
    simp [move_child, h]
  · rintro cs src dest sm dest2 hrem hadj rfl
    obtain ⟨shrunk, moved⟩ := sm
    simp [move_child, hrem, hadj]
  · intro cs src dest sm hrem hadj
    obtain ⟨shrunk, moved⟩ := sm
    simp [move_child, hrem, hadj]
  · intro cs src dest sm dest2 hrem hadj hne hins
    obtain ⟨shrunk, moved⟩ := sm
    simp only [] at hins
    simp [move_child, hrem, hadj, hne, hins]

/-- Witness for C8: a self-move, a move with an invalid source path, a
move resolving to the source's own final position, a move whose
destination descends into the moved subtree, and a move whose adjusted
destination is invalid for insertion are all no-ops at concrete inputs. -/
theorem move_child_noop_on_degenerate_witness :
    move_child [Node.group "A" [], Node.group "B" []] [1] [1] = none ∧
    move_child [Node.group "A" []] [5] [0] = none ∧
    move_child [Node.group "A" [], Node.group "B" []] [1] [2] = none ∧
    move_child [Node.group "A" [], Node.group "B" []] [1] [1, 0] = none ∧
    move_child [Node.group "A" []] [0] [5] = none :=
  ⟨move_child_noop_on_degenerate.1 [Node.group "A" [], Node.group "B" []] [1],
   move_child_noop_on_degenerate.2.1 [Node.group "A" []] [5] [0] rfl,
   move_child_noop_on_degenerate.2.2.1 [Node.group "A" [], Node.group "B" []] [1] [2]
     ([Node.group "A" []], Node.group "B" []) [1] rfl rfl rfl,
   move_child_noop_on_degenerate.2.2.2.1 [Node.group "A" [], Node.group "B" []] [1] [1, 0]
     ([Node.group "A" []], Node.group "B" []) rfl rfl,
   move_child_noop_on_degenerate.2.2.2.2 [Node.group "A" []] [0] [5]
     ([], Node.group "A" []) [4] rfl rfl (by decide) rfl⟩

/-- Removal decomposition: removing the subtree at a valid path splits
the leaf-building multiset of a child sequence into the remainder plus
the moved subtree. -/
theorem removeChildAt_buildings (p : Path) :
    ∀ (cs cs2 : List Node) (moved : Node),
      removeChildAt cs p = some (cs2, moved) →
      (buildingsOfList cs : Multiset Building) =
        (buildingsOfList cs2 : Multiset Building) + (moved.buildings : Multiset Building) := by
  induction p with
  | nil =>
    intro cs cs2 moved h
    simp [removeChildAt] at h
  | cons i rest ih =>
    intro cs cs2 moved h
    cases rest with
    | nil =>
      simp only [removeChildAt] at h
      cases hget : cs.get? i with
      | none => rw [hget] at h; simp at h
      | some n =>
        rw [hget] at h
        dsimp only [] at h
        simp only [Option.some.injEq, Prod.mk.injEq] at h
        obtain ⟨h1, h2⟩ := h
        subst h1
        subst h2
        obtain ⟨hlt, hn⟩ := List.get?_eq_some.mp hget
        subst hn
        rw [List.get_eq_getElem]
        conv_lhs => rw [← List.take_append_drop i cs, List.drop_eq_getElem_cons hlt]
        simp only [vecRemove, buildingsOfList_append, buildingsOfList_cons,
          ← Multiset.coe_add]
        abel
    | cons j rest2 =>
      simp only [removeChildAt] at h
      cases hget : cs.get? i with
      | none => rw [hget] at h; simp at h
      | some n =>
        rw [hget] at h
        cases n with
        | building b => simp at h
        | group gname g =>
          dsimp only [] at h
          cases hrec : removeChildAt g (j :: rest2) with
          | none => rw [hrec] at h; simp at h
          | some g2m =>
            obtain ⟨g2, mv⟩ := g2m
            rw [hrec] at h
            dsimp only [] at h
            simp only [Option.some.injEq, Prod.mk.injEq] at h
            obtain ⟨h1, h2⟩ := h
            subst h1
            subst h2
            have ihg := ih g g2 mv hrec
            obtain ⟨hlt, hn⟩ := List.get?_eq_some.mp hget
            have hcsi : cs[i] = Node.group gname g := by
              rw [← hn]
              exact (List.get_eq_getElem cs ⟨i, hlt⟩).symm
            have hset : cs.set i (Node.group gname g2) =
                cs.take i ++ Node.group gname g2 :: cs.drop (i + 1) :=
              List.set_eq_take_cons_drop _ hlt
            rw [hset]
            conv_lhs => rw [← List.take_append_drop i cs, List.drop_eq_getElem_cons hlt, hcsi]
            simp only [buildingsOfList_append, buildingsOfList_cons, Node.buildings,
              ← Multiset.coe_add]
            rw [ihg]
            abel

/-- Insertion decomposition: inserting a subtree at a valid path adds the
subtree's leaf-building multiset to the child sequence's. -/
theorem insertChildAt_buildings (p : Path) :
    ∀ (cs : List Node) (n : Node) (cs2 : List Node),
      insertChildAt cs p n = some cs2 →
      (buildingsOfList cs2 : Multiset Building) =
        (buildingsOfList cs : Multiset Building) + (n.buildings : Multiset Building) := by
  induction p with
  | nil =>
    intro cs n cs2 h
    simp [insertChildAt] at h
  | cons i rest ih =>
    intro cs n cs2 h
    cases rest with
    | nil =>
      simp only [insertChildAt] at h
      split_ifs at h with hle
      simp only [Option.some.injEq] at h
      subst h
      conv_rhs => rw [← List.take_append_drop i cs]
      simp only [vecInsert, buildingsOfList_append, buildingsOfList_cons,
        ← Multiset.coe_add]
      abel
    | cons j rest2 =>
      simp only [insertChildAt] at h
      cases hget : cs.get? i with
      | none => rw [hget] at h; simp at h
      | some nd =>
        rw [hget] at h
        cases nd with
        | building b => simp at h
        | group gname g =>
          dsimp only [] at h
          cases hrec : insertChildAt g (j :: rest2) n with
          | none => rw [hrec] at h; simp at h
          | some g2 =>
            rw [hrec] at h
            dsimp only [] at h
            simp only [Option.some.injEq] at h
            subst h
            have ihg := ih g n g2 hrec
            obtain ⟨hlt, hn⟩ := List.get?_eq_some.mp hget
            have hcsi : cs[i] = Node.group gname g := by
              rw [← hn]
              exact (List.get_eq_getElem cs ⟨i, hlt⟩).symm
            have hset : cs.set i (Node.group gname g2) =
                cs.take i ++ Node.group gname g2 :: cs.drop (i + 1) :=
              List.set_eq_take_cons_drop _ hlt
            rw [hset]
            conv_rhs => rw [← List.take_append_drop i cs, List.drop_eq_getElem_cons hlt, hcsi]
            simp only [buildingsOfList_append, buildingsOfList_cons, Node.buildings,
              ← Multiset.coe_add]
            rw [ihg]
            abel

/-- C9: every move completed by the Move Engine preserves the multiset of
leaf Building nodes of the group it operates on: a move only changes
structural position, never creating, deleting or altering a Building. -/
theorem move_child_conserves_buildings (cs : List Node) (src dest : Path)
    (cs2 : List Node) (h : move_child cs src dest = some cs2) :
    (buildingsOfList cs2 : Multiset Building) =
      (buildingsOfList cs : Multiset Building) := by
  unfold move_child at h
  cases hrem : removeChildAt cs src with
  | none => rw [hrem] at h; simp at h
  | some sm =>
    obtain ⟨shrunk, moved⟩ := sm
    simp only [hrem] at h
    cases hadj : adjustDest src dest with
    | none => rw [hadj] at h; simp at h
    | some dest2 =>
      simp only [hadj] at h
      by_cases hsame : dest2 = src
      · rw [if_pos hsame] at h
        exact Option.noConfusion h
      · rw [if_neg hsame] at h
        have h1 := removeChildAt_buildings src cs shrunk moved hrem
        have h2 := insertChildAt_buildings dest2 shrunk moved cs2 h
        rw [h2, h1]

/-- Witness for C9: the spec's concrete move relocating a Building leaf
preserves the leaf-building multiset. -/
theorem move_child_conserves_buildings_witness :
    move_child [Node.group "A" [], Node.building bMinerW] [1] [0, 0] =
      some [Node.group "A" [Node.building bMinerW]] ∧
    (buildingsOfList [Node.group "A" [Node.building bMinerW]] : Multiset Building) =
      (buildingsOfList [Node.group "A" [], Node.building bMinerW] : Multiset Building) :=
  ⟨rfl, move_child_conserves_buildings [Node.group "A" [], Node.building bMinerW]
    [1] [0, 0] [Node.group "A" [Node.building bMinerW]] rfl⟩

end SatAcct
